import Mathlib

deriving instance DecidableEq for Except

/-!
# Verification of the opum-ledger domain core

Shallow embedding of the opum-ledger service's domain layer:
transaction balance validation, exact rational price arithmetic,
account-path expansion, transaction search filter construction, and
the optimistic-concurrency CRUD protocol of the four entity stores
(Ledger, Account, Commodity, Transaction).

Python `datetime`/`pendulum` timestamps are modelled as integers,
UUIDs as naturals, and the MongoDB collection of each entity as a
list of records; `find_one` is the first list element matching the
query and a conditional `update` rewrites the first matching record,
reporting the matched count.
-/

namespace OpumLedger

/-- Timestamps (`datetime` / `pendulum.DateTime`): modelled as integers
with the usual order. -/
abbrev Time := Int

/-- `TransactionState` enum from `domain/types/transaction.py`. -/
inductive TransactionState where
  | cleared
  | uncleared
  | pending
deriving DecidableEq, Repr

/-- `FractionPrice` (numerator/denominator in minimal units). -/
structure FractionPrice where
  numerator : Int
  denominator : Int
deriving DecidableEq, Repr

/-- `Price`: a price fraction tagged with the settlement commodity. -/
structure Price where
  commodity_id : Nat
  price : FractionPrice
deriving DecidableEq, Repr

/-- `Amount`: an integer amount in minimal units of a commodity. -/
structure Amount where
  commodity_id : Nat
  amount : Int
deriving DecidableEq, Repr

/-- `Detail`: one leg of a transaction. -/
structure Detail where
  account_id : Nat
  amount : Amount
  price : Option Price
deriving DecidableEq, Repr

/-- Errors raised by the pure validation layer (`ValueError` /
`ZeroDivisionError` carrying the Python message). -/
inductive PureError where
  | zeroDivision
  | valueError (msg : String)
deriving DecidableEq, Repr

/-- `Detail.total` from `domain/types/transaction.py`:
no price means the raw amount; otherwise the exact fraction
`amount * numerator / denominator` (Python `Fraction`, i.e. `ℚ`),
which must be a whole number, re-tagged with the price commodity.
A zero denominator makes the `Fraction` constructor raise. -/
def Detail.total (d : Detail) : Except PureError Amount :=
  match d.price with
  | none => .ok d.amount
  | some p =>
      if p.price.denominator = 0 then .error .zeroDivision
      else if ((d.amount.amount * p.price.numerator : ℚ) /
          (p.price.denominator : ℚ)).den ≠ 1 then
        .error (.valueError "Price is not a whole number")
      else
        .ok ⟨p.commodity_id,
          ((d.amount.amount * p.price.numerator : ℚ) /
            (p.price.denominator : ℚ)).num⟩

/-- `NewTransaction.check_details`: rejects an empty detail list, then
sums every detail's `total.amount` into one integer accumulator and
rejects a nonzero grand sum. -/
def check_details (details : List Detail) : Except PureError (List Detail) :=
  if details.isEmpty then .error (.valueError "Details can not be empty")
  else
    match details.mapM Detail.total with
    | .error e => .error e
    | .ok totals =>
        if (totals.map Amount.amount).sum = 0 then .ok details
        else .error (.valueError "Transaction is not balanced")

/-- Python `str.split(sep)` for a one-character separator, on the
character list: splitting the empty string gives `[""]`, and each
separator occurrence opens a new group. -/
def splitCharList (sep : Char) : List Char → List (List Char)
  | [] => [[]]
  | c :: cs =>
      match splitCharList sep cs with
      | [] => [[]]
      | g :: gs => if c = sep then [] :: g :: gs else (c :: g) :: gs

/-- Python `path.split(":")`. -/
def pySplit (sep : Char) (s : String) : List String :=
  (splitCharList sep s.data).map (fun l => ⟨l⟩)

/-- Python `itertools.accumulate` with a binary function and no initial
value: empty input gives an empty output, otherwise a left scan seeded
with the first element. -/
def accumulateWith (f : String → String → String) : List String → List String
  | [] => []
  | x :: xs => xs.scanl f x

/-- `split_path` from `core/utils.py`: accumulate the colon-separated
segments with `x ++ ":" ++ y`. -/
def split_path (path : String) : List String :=
  accumulateWith (fun x y => x ++ ":" ++ y) (pySplit ':' path)

/-- Spec-side definition (§4.1 PathHierarchy): the ordered list of
cumulative colon-joined segment groups, one entry per segment, the
`i`-th entry joining the first `i+1` segments. -/
def cumulativePaths (ss : List String) : List String :=
  (List.range ss.length).map (fun i => String.intercalate ":" (ss.take (i + 1)))

/-- Python `s.startswith(c)` for a one-character needle: the first
character equals `c`. -/
def startsWithChar (c : Char) (s : String) : Bool :=
  match s.data with
  | [] => false
  | d :: _ => d = c

/-- `TransactionsBL.group_accounts`: split filter strings into the
three direction buckets, stripping a leading `+`, `-` or `=` sigil;
an unprefixed string lands in the `=` bucket unchanged. -/
def group_accounts : List String → List String × List String × List String
  | [] => ([], [], [])
  | a :: rest =>
      let g := group_accounts rest
      if startsWithChar '+' a then (a.drop 1 :: g.1, g.2.1, g.2.2)
      else if startsWithChar '-' a then (g.1, a.drop 1 :: g.2.1, g.2.2)
      else if startsWithChar '=' a then (g.1, g.2.1, a.drop 1 :: g.2.2)
      else (g.1, g.2.1, a :: g.2.2)

/-! ## Helper lemmas on exact rational division -/

lemma int_div_den_eq_one_iff (A D : Int) (hD : D ≠ 0) :
    ((A : ℚ) / (D : ℚ)).den = 1 ↔ D ∣ A := by
  have hDQ : (D : ℚ) ≠ 0 := Int.cast_ne_zero.mpr hD
  constructor
  · intro h1
    have hq : ((((A : ℚ) / (D : ℚ)).num : ℚ)) = (A : ℚ) / (D : ℚ) :=
      (Rat.den_eq_one_iff _).mp h1
    refine ⟨((A : ℚ) / (D : ℚ)).num, ?_⟩
    have h3 : (A : ℚ) = (D : ℚ) * (((A : ℚ) / (D : ℚ)).num : ℚ) := by
      rw [hq]; field_simp
    exact_mod_cast h3
  · rintro ⟨k, rfl⟩
    have h4 : ((D * k : ℤ) : ℚ) / (D : ℚ) = (k : ℚ) := by
      push_cast
      field_simp
    rw [h4]
    exact Rat.den_intCast k

lemma int_div_num_mul (A D : Int) (hD : D ≠ 0)
    (h1 : ((A : ℚ) / (D : ℚ)).den = 1) :
    ((A : ℚ) / (D : ℚ)).num * D = A := by
  have hDQ : (D : ℚ) ≠ 0 := Int.cast_ne_zero.mpr hD
  have hq : ((((A : ℚ) / (D : ℚ)).num : ℚ)) = (A : ℚ) / (D : ℚ) :=
    (Rat.den_eq_one_iff _).mp h1
  have h2 : ((((A : ℚ) / (D : ℚ)).num : ℚ)) * (D : ℚ) = (A : ℚ) := by
    rw [hq]; field_simp
  exact_mod_cast h2

/-! ## Helper lemma for path accumulation -/

lemma scanl_colon (x : String) (xs : List String) :
    xs.scanl (fun a b => a ++ ":" ++ b) x =
      (List.range (xs.length + 1)).map
        (fun i => String.intercalate ":" ((x :: xs).take (i + 1))) := by
  induction xs generalizing x with
  | nil => rfl
  | cons y ys ih =>
      show x :: ys.scanl _ (x ++ ":" ++ y) = _
      rw [ih (x ++ ":" ++ y)]
      rw [List.length_cons, List.range_succ_eq_map (ys.length + 1), List.map_cons,
        List.map_map]
      congr 1

/-! ## C1: transaction creation validates details exactly once -/

/-- C1. `NewTransaction.check_details` accepts a detail list exactly
when it is non-empty and the flat integer sum of all details'
`total.amount` values is zero (the sum runs over all details
regardless of commodity); it raises a validation error otherwise, so
every transaction accepted by create has totals summing to 0. -/
theorem check_details_ok_iff (details : List Detail) (ts : List Amount)
    (h : details.mapM Detail.total = .ok ts) :
    (check_details details).isOk = true ↔
      details ≠ [] ∧ (ts.map Amount.amount).sum = 0 := by
  unfold check_details
  rcases details with _ | ⟨d, ds⟩
  · have h' : (Except.ok ([] : List Amount) : Except PureError _) = .ok ts := h
    injection h' with h''
    subst h''
    simp [Except.isOk, Except.toBool]
  · rw [if_neg (by simp)]
    rw [h]
    by_cases hs : (ts.map Amount.amount).sum = 0
    · simp [hs, Except.isOk, Except.toBool]
    · simp [hs, Except.isOk, Except.toBool]

/-- Witness for C1 at a concrete balanced two-leg detail list. -/
theorem check_details_ok_iff_witness :
    (check_details [⟨1, ⟨7, 5000⟩, none⟩, ⟨2, ⟨7, -5000⟩, none⟩]).isOk = true ↔
      ([⟨1, ⟨7, 5000⟩, none⟩, ⟨2, ⟨7, -5000⟩, none⟩] : List Detail) ≠ [] ∧
        (([⟨7, 5000⟩, ⟨7, -5000⟩] : List Amount).map Amount.amount).sum = 0 :=
  check_details_ok_iff [⟨1, ⟨7, 5000⟩, none⟩, ⟨2, ⟨7, -5000⟩, none⟩]
    [⟨7, 5000⟩, ⟨7, -5000⟩] (by decide)

/-! ## C3: price multiplication is exact rational arithmetic -/

/-- C3. For a detail with a price whose denominator is nonzero,
`Detail.total` either returns the exact integer
`amount * numerator / denominator` (the returned amount times the
denominator recovers `amount * numerator` exactly, tagged with the
price commodity — no rounding), and it succeeds precisely when the
denominator divides `amount * numerator`. -/
theorem total_exact_rational (d : Detail) (p : Price)
    (hp : d.price = some p) (hden : p.price.denominator ≠ 0) :
    (∀ a : Amount, Detail.total d = .ok a →
        a.commodity_id = p.commodity_id ∧
        a.amount * p.price.denominator = d.amount.amount * p.price.numerator)
    ∧ ((Detail.total d).isOk = true ↔
        p.price.denominator ∣ d.amount.amount * p.price.numerator) := by
  simp only [Detail.total, hp]
  rw [if_neg hden]
  have hcast : ((d.amount.amount : ℚ) * (p.price.numerator : ℚ)) =
      ((d.amount.amount * p.price.numerator : ℤ) : ℚ) := by push_cast; ring
  by_cases h1 : ((d.amount.amount : ℚ) * (p.price.numerator : ℚ) /
      (p.price.denominator : ℚ)).den = 1
  · rw [if_neg (by simpa using h1)]
    constructor
    · intro a ha
      injection ha with ha'
      subst ha'
      refine ⟨rfl, ?_⟩
      have h5 := int_div_num_mul (d.amount.amount * p.price.numerator)
        p.price.denominator hden (by rw [← hcast]; exact h1)
      simpa [← hcast] using h5
    · have h6 := (int_div_den_eq_one_iff (d.amount.amount * p.price.numerator)
        p.price.denominator hden).mp (by rw [← hcast]; exact h1)
      simp [Except.isOk, Except.toBool, h6]
  · rw [if_pos (by simpa using h1)]
    constructor
    · intro a ha
      exact absurd ha (by simp)
    · have hnd : ¬ p.price.denominator ∣ d.amount.amount * p.price.numerator := by
        intro hdvd
        exact h1 (by
          rw [hcast]
          exact (int_div_den_eq_one_iff _ _ hden).mpr hdvd)
      simp [Except.isOk, Except.toBool, hnd]

/-- Witness for C3: amount 10000 at price 9200/10000 multiplies
exactly (the sum-side divisibility holds), illustrating the spec's
worked example. -/
theorem total_exact_rational_witness :
    (∀ a : Amount,
        Detail.total ⟨1, ⟨2, 10000⟩, some ⟨3, ⟨9200, 10000⟩⟩⟩ = .ok a →
        a.commodity_id = 3 ∧ a.amount * 10000 = 10000 * 9200)
    ∧ ((Detail.total ⟨1, ⟨2, 10000⟩, some ⟨3, ⟨9200, 10000⟩⟩⟩).isOk = true ↔
        (10000 : Int) ∣ 10000 * 9200) :=
  total_exact_rational ⟨1, ⟨2, 10000⟩, some ⟨3, ⟨9200, 10000⟩⟩⟩
    ⟨3, ⟨9200, 10000⟩⟩ rfl (by decide)

/-! ## C9: path expansion is the ordered list of cumulative prefixes -/

/-- Spec-side definition (§4.1 PathHierarchy): for segments
`s1..sn`, the `n`-element root-to-leaf sequence
`[s1, s1:s2, ..., s1:...:sn]` of cumulative colon-joined segment
groups. (Declared above as `cumulativePaths`.) C9. `split_path`
returns exactly that sequence for the colon-separated segments of
its input, and matches the spec's two worked examples. -/
theorem split_path_cumulative :
    (∀ path : String, split_path path = cumulativePaths (pySplit ':' path))
    ∧ split_path "Assets:Cash:USD" = ["Assets", "Assets:Cash", "Assets:Cash:USD"]
    ∧ split_path "Assets" = ["Assets"] := by
  refine ⟨?_, by decide, by decide⟩
  intro path
  unfold split_path cumulativePaths accumulateWith
  cases pySplit ':' path with
  | nil => rfl
  | cons x xs => simpa using scanl_colon x xs

/-! ## Stored transaction documents -/

/-- A stored `TransactionModel` document (Beanie/MongoDB): the
`BaseAppModel` timestamps plus the transaction payload. -/
structure TransactionRecord where
  id : Nat
  ledger_id : Nat
  date_time : Time
  description : String
  details : List Detail
  tags : List String
  state : TransactionState
  updated_at : Time
  created_at : Time
  deleted_at : Option Time
deriving DecidableEq, Repr

/-- A transactions collection. -/
abbrev TransactionStore := List TransactionRecord

/-! ## C6: transaction search account filter -/

/-- The direction sigil attached to a resolved account id
(the `Literal["+", "-", "="]` tag of `accounts_ids`). -/
inductive Sigil where
  | plus
  | minus
  | eq
deriving DecidableEq, Repr

/-- The amount constraint of one bucket's `$elemMatch` document:
`{"$gt": 0}` for `+`, `{"$lt": 0}` for `-`, none for `=`. -/
def signOk (s : Sigil) (x : Int) : Bool :=
  match s with
  | .plus => decide (0 < x)
  | .minus => decide (x < 0)
  | .eq => true

/-- One `$elemMatch` document built by
`TransactionsDAL.find_ledger_transactions` for the pair `(s, a)`:
some detail has `account_id == a` and its `amount.amount` satisfies
the sigil's sign constraint. -/
def elemMatchSigil (s : Sigil) (a : Nat) (r : TransactionRecord) : Bool :=
  r.details.any (fun dt => dt.account_id == a && signOk s dt.amount.amount)

/-- The ids landing in sigil bucket `s` of `accounts_filters`,
in input order. -/
def accountsFilterIds (accounts_ids : List (Sigil × Nat)) (s : Sigil) : List Nat :=
  (accounts_ids.filter (fun q => q.1 == s)).map (fun q => q.2)

/-- The `$or` over one bucket's `$elemMatch` documents. -/
def bucketOr (s : Sigil) (ids : List Nat) (r : TransactionRecord) : Bool :=
  ids.any (fun a => elemMatchSigil s a r)

/-- `compiled_filters`: the `$and` of the `$or` of each non-empty
bucket; an empty bucket contributes no clause, and with all buckets
empty no filter is applied at all. -/
def compiledFilter (accounts_ids : List (Sigil × Nat)) (r : TransactionRecord) : Bool :=
  ((accountsFilterIds accounts_ids .plus).isEmpty ||
    bucketOr .plus (accountsFilterIds accounts_ids .plus) r) &&
  ((accountsFilterIds accounts_ids .minus).isEmpty ||
    bucketOr .minus (accountsFilterIds accounts_ids .minus) r) &&
  ((accountsFilterIds accounts_ids .eq).isEmpty ||
    bucketOr .eq (accountsFilterIds accounts_ids .eq) r)

lemma bucketOr_iff (s : Sigil) (ids : List Nat) (r : TransactionRecord) :
    bucketOr s ids r = true ↔
      ∃ dt ∈ r.details, dt.account_id ∈ ids ∧ signOk s dt.amount.amount = true := by
  simp only [bucketOr, elemMatchSigil, List.any_eq_true, Bool.and_eq_true, beq_iff_eq]
  constructor
  · rintro ⟨a, ha, dt, hdt, h1, h2⟩
    exact ⟨dt, hdt, h1 ▸ ha, h2⟩
  · rintro ⟨dt, hdt, h1, h2⟩
    exact ⟨dt.account_id, h1, dt, hdt, rfl, h2⟩

lemma emptyOr_iff (l : List Nat) (b : Bool) :
    (l.isEmpty || b) = true ↔ (l ≠ [] → b = true) := by
  cases l <;> simp

/-- C6. (i) The compiled account filter matches a stored transaction
exactly when, for each of the three sigil buckets that is non-empty,
the transaction has at least one detail whose `account_id` is among
that bucket's resolved ids with `amount > 0` for the `+` bucket,
`amount < 0` for the `-` bucket, and unconstrained for the `=`
bucket — the non-empty buckets' clauses are conjoined. (ii)
`group_accounts` sends a string into the `+`/`-` bucket stripped of
its sigil when it starts with `+`/`-`, and otherwise into the `=`
bucket, stripped of a leading `=` when present. -/
theorem account_filter_buckets :
    (∀ (accounts_ids : List (Sigil × Nat)) (r : TransactionRecord),
      compiledFilter accounts_ids r = true ↔
        ((accountsFilterIds accounts_ids .plus ≠ [] →
            ∃ dt ∈ r.details,
              dt.account_id ∈ accountsFilterIds accounts_ids .plus ∧
                0 < dt.amount.amount)
         ∧ (accountsFilterIds accounts_ids .minus ≠ [] →
            ∃ dt ∈ r.details,
              dt.account_id ∈ accountsFilterIds accounts_ids .minus ∧
                dt.amount.amount < 0)
         ∧ (accountsFilterIds accounts_ids .eq ≠ [] →
            ∃ dt ∈ r.details,
              dt.account_id ∈ accountsFilterIds accounts_ids .eq)))
    ∧ (∀ accounts : List String,
        group_accounts accounts =
          ((accounts.filter (startsWithChar '+')).map (fun a => a.drop 1),
           (accounts.filter
              (fun a => !startsWithChar '+' a && startsWithChar '-' a)).map
             (fun a => a.drop 1),
           (accounts.filter
              (fun a => !startsWithChar '+' a && !startsWithChar '-' a)).map
             (fun a => if startsWithChar '=' a then a.drop 1 else a))) := by
  constructor
  · intro accounts_ids r
    unfold compiledFilter
    simp only [Bool.and_eq_true, emptyOr_iff, bucketOr_iff, signOk]
    simp [and_assoc]
  · intro accounts
    induction accounts with
    | nil => rfl
    | cons a rest ih =>
        by_cases h1 : startsWithChar '+' a
        · simp [group_accounts, ih, h1]
        · by_cases h2 : startsWithChar '-' a
          · simp [group_accounts, ih, h1, h2]
          · by_cases h3 : startsWithChar '=' a
            · simp [group_accounts, ih, h1, h2, h3]
            · simp [group_accounts, ih, h1, h2, h3]

/-! ## The persistence layer

MongoDB/Beanie primitives over a collection-as-list: `find_one` is
`List.find?`, and a conditional update rewrites the first matching
document, reporting how many documents matched (0 or 1). -/

/-- Error outcomes of a DAL call: `ObjectNotFound`,
`PreconditionFailed`, `ConflictException` (a caught
`DuplicateKeyError`), an uncaught `DuplicateKeyError` escaping the
DAL (an internal fault, handled as a 500), and `ValueError`. -/
inductive DalError where
  | objectNotFound
  | preconditionFailed
  | conflictError
  | duplicateKey
  | valueError
deriving DecidableEq, Repr

/-- `update_one` / conditional `update` on a `find_one` query:
rewrite the first document matching `p` with `f` and report the
matched count. -/
def updateFirst (p : α → Bool) (f : α → α) : List α → List α × Nat
  | [] => ([], 0)
  | r :: rs =>
      if p r then (f r :: rs, 1)
      else
        let q := updateFirst p f rs
        (r :: q.1, q.2)

/-- Whether two distinct documents share the same unique-index key:
the condition under which MongoDB raises `DuplicateKeyError` on the
write that produced this collection state. -/
def hasDupBy [BEq β] (key : α → β) : List α → Bool
  | [] => false
  | x :: xs => xs.any (fun y => key y == key x) || hasDupBy key xs

/-! ## TransactionsDAL -/

/-- The `find_one` condition of the transaction-scoped queries:
`id == transaction_id`, `ledger_id == ledger_id`,
`deleted_at == None`. -/
def txnQuery (lid tid : Nat) (r : TransactionRecord) : Bool :=
  r.id == tid && r.ledger_id == lid && r.deleted_at == none

/-- `UpdateTransaction`: the partial patch; an absent field is
excluded from the model dump. -/
structure UpdateTransaction where
  description : Option String := none
  date_time : Option Time := none
  details : Option (List Detail) := none
  tags : Option (List String) := none
  state : Option TransactionState := none
deriving DecidableEq, Repr

/-- `Set(update_data)` for a transaction update: the present patch
fields plus `updated_at = pendulum.now("UTC")`. -/
def applyTransactionPatch (data : UpdateTransaction) (now : Time)
    (r : TransactionRecord) : TransactionRecord :=
  { r with
    description := data.description.getD r.description
    date_time := data.date_time.getD r.date_time
    details := data.details.getD r.details
    tags := data.tags.getD r.tags
    state := data.state.getD r.state
    updated_at := now }

/-- `TransactionsDAL.get_transaction`: `find_one` by id among
non-deleted documents, `ObjectNotFound` when absent; the returned
document goes through `Transaction.model_validate`, which re-runs the
`check_details` field validator inherited from `NewTransaction` — a
stored transaction whose details fail it raises `ValidationError` at
the read. -/
def get_transaction (store : TransactionStore) (tid : Nat) :
    Except DalError TransactionRecord :=
  match store.find? (fun r => r.id == tid && r.deleted_at == none) with
  | none => .error .objectNotFound
  | some r =>
      match check_details r.details with
      | .error _ => .error .valueError
      | .ok _ => .ok r

/-- The conditional-write stage of
`TransactionsDAL.update_ledger_transaction`: one conditional update,
`PreconditionFailed` on zero matches, then the `get_transaction`
re-read. The write commits before the re-read runs, so the result
pairs the (possibly already mutated) collection with the outcome:
when the validating re-read raises, the error propagates even though
the patch is already stored. -/
def txnWrite (store : TransactionStore) (tid : Nat)
    (data : UpdateTransaction) (now : Time)
    (cond : TransactionRecord → Bool) :
    TransactionStore × Except DalError TransactionRecord :=
  let res := updateFirst cond (applyTransactionPatch data now) store
  if res.2 = 0 then (res.1, .error .preconditionFailed)
  else (res.1, get_transaction res.1 tid)

/-- `TransactionsDAL.update_ledger_transaction`: look up the
non-deleted transaction (`ObjectNotFound` when absent), fail
`PreconditionFailed` at once when an expected timestamp is supplied
and the stored `updated_at` is strictly newer, then run the
conditional write, additionally keyed on `updated_at == expected`
when an expected timestamp was supplied. -/
def update_ledger_transaction (store : TransactionStore) (lid tid : Nat)
    (data : UpdateTransaction) (expected : Option Time) (now : Time) :
    TransactionStore × Except DalError TransactionRecord :=
  match store.find? (txnQuery lid tid) with
  | none => (store, .error .objectNotFound)
  | some txn =>
      match expected with
      | some t =>
          if t < txn.updated_at then (store, .error .preconditionFailed)
          else txnWrite store tid data now
            (fun r => txnQuery lid tid r && r.updated_at == t)
      | none => txnWrite store tid data now (txnQuery lid tid)

/-- The conditional-write stage of
`TransactionsDAL.delete_ledger_transaction`: the `Set` document is
`{"deleted_at": pendulum.now("UTC")}` — it does not touch
`updated_at`. -/
def txnDeleteWrite (store : TransactionStore) (now : Time)
    (cond : TransactionRecord → Bool) :
    Except DalError TransactionStore :=
  let res := updateFirst cond (fun r => { r with deleted_at := some now }) store
  if res.2 = 0 then .error .preconditionFailed
  else .ok res.1

/-- `TransactionsDAL.delete_ledger_transaction`: same protocol as the
update, but the write only sets `deleted_at`. -/
def delete_ledger_transaction (store : TransactionStore) (lid tid : Nat)
    (expected : Option Time) (now : Time) :
    Except DalError TransactionStore :=
  match store.find? (txnQuery lid tid) with
  | none => .error .objectNotFound
  | some txn =>
      match expected with
      | some t =>
          if t < txn.updated_at then .error .preconditionFailed
          else txnDeleteWrite store now
            (fun r => txnQuery lid tid r && r.updated_at == t)
      | none => txnDeleteWrite store now (txnQuery lid tid)

/-- The payload of a `NewTransaction`. pydantic runs the
`check_details` field validator when the model is constructed, so a
`NewTransaction` value exists in the program only when its details
passed validation; the last field carries that construction-time
invariant. -/
structure NewTransactionData where
  description : String
  date_time : Time
  details : List Detail
  tags : List String
  state : TransactionState
  valid_details : (check_details details).isOk = true

/-- `TransactionsDAL.create_transaction`: insert the new document and
re-read it through `get_transaction`. -/
def create_transaction (store : TransactionStore) (lid : Nat)
    (nt : NewTransactionData) (newId : Nat) (now : Time) :
    Except DalError (TransactionStore × TransactionRecord) :=
  let txn : TransactionRecord :=
    ⟨newId, lid, nt.date_time, nt.description, nt.details, nt.tags, nt.state,
      now, now, none⟩
  match get_transaction (store ++ [txn]) newId with
  | .error e => .error e
  | .ok r => .ok (store ++ [txn], r)

/-- The optional filters of
`TransactionsDAL.find_ledger_transactions` besides the account
filter. -/
structure FindTransactionsArgs where
  tags : Option (List String) := none
  state : Option TransactionState := none
  after : Option Time := none
  before : Option Time := none
  exchange : Option Bool := none
  limit : Nat := 20
  skip : Nat := 0
  descending : Bool := true
deriving DecidableEq, Repr

/-- The conjunction of the find query's clauses on one stored
transaction: base scope (`ledger_id`, not soft-deleted), date range
(`after` inclusive, `before` exclusive), tags (`All`, skipped for an
empty list — Python truthiness), state, exchange flag (`$elemMatch`
on a non-null price, or its negation) and the compiled account
filter. -/
def findMatches (lid : Nat) (args : FindTransactionsArgs)
    (accounts_ids : List (Sigil × Nat)) (r : TransactionRecord) : Bool :=
  r.ledger_id == lid && r.deleted_at == none &&
  (match args.after with
   | some t => decide (t ≤ r.date_time)
   | none => true) &&
  (match args.before with
   | some t => decide (r.date_time < t)
   | none => true) &&
  (match args.tags with
   | some ts => ts.isEmpty || ts.all (fun tg => r.tags.contains tg)
   | none => true) &&
  (match args.state with
   | some st => r.state == st
   | none => true) &&
  (match args.exchange with
   | some true => r.details.any (fun dt => dt.price.isSome)
   | some false => !(r.details.any (fun dt => dt.price.isSome))
   | none => true) &&
  compiledFilter accounts_ids r

/-- `TransactionsDAL.find_ledger_transactions`: filter, count before
pagination, sort by `date_time`, then `skip`/`limit`. -/
def find_ledger_transactions (store : TransactionStore) (lid : Nat)
    (accounts_ids : List (Sigil × Nat)) (args : FindTransactionsArgs) :
    List TransactionRecord × Nat :=
  let filtered := store.filter (findMatches lid args accounts_ids)
  let sorted :=
    if args.descending then
      filtered.mergeSort (fun a b => decide (b.date_time ≤ a.date_time))
    else filtered.mergeSort (fun a b => decide (a.date_time ≤ b.date_time))
  (((sorted.drop args.skip).take args.limit), filtered.length)

/-! ## LedgersDAL -/

/-- A stored `LedgerModel` document. -/
structure LedgerRecord where
  id : Nat
  name : String
  description : Option String
  updated_at : Time
  created_at : Time
  deleted_at : Option Time
deriving DecidableEq, Repr

/-- A ledgers collection. -/
abbrev LedgerStore := List LedgerRecord

/-- `UpdateLedger`: the partial ledger patch. -/
structure UpdateLedger where
  name : Option String := none
  description : Option String := none
deriving DecidableEq, Repr

/-- `Set(update_data)` for a ledger update: the present patch fields
plus `updated_at = pendulum.now("UTC")`. -/
def applyLedgerPatch (data : UpdateLedger) (now : Time)
    (r : LedgerRecord) : LedgerRecord :=
  { r with
    name := data.name.getD r.name
    description := match data.description with
      | some d => some d
      | none => r.description
    updated_at := now }

/-- The unique index on `LedgerModel`: `name`. -/
def ledgerDup (store : LedgerStore) : Bool :=
  hasDupBy (fun r => r.name) store

/-- `LedgersDAL.create_ledger`: insert; a `DuplicateKeyError` from
the unique name index is caught and re-raised as
`ConflictException`. -/
def create_ledger (store : LedgerStore) (name : String)
    (description : Option String) (newId : Nat) (now : Time) :
    Except DalError (LedgerStore × LedgerRecord) :=
  let lg : LedgerRecord := ⟨newId, name, description, now, now, none⟩
  if store.any (fun r => r.name == name) then .error .conflictError
  else .ok (store ++ [lg], lg)

/-- `LedgersDAL.get_ledger`. -/
def get_ledger (store : LedgerStore) (lid : Nat) :
    Except DalError LedgerRecord :=
  match store.find? (fun r => r.id == lid && r.deleted_at == none) with
  | none => .error .objectNotFound
  | some r => .ok r

/-- The conditional-write stage of `LedgersDAL.update_ledger`; the
write is not wrapped in a `DuplicateKeyError` handler, so a unique
name violation escapes as the raw error. -/
def ledgerWrite (store : LedgerStore) (lid : Nat) (data : UpdateLedger)
    (now : Time) (cond : LedgerRecord → Bool) :
    Except DalError (LedgerStore × LedgerRecord) :=
  let res := updateFirst cond (applyLedgerPatch data now) store
  if res.2 ≠ 0 && ledgerDup res.1 then .error .duplicateKey
  else if res.2 = 0 then .error .preconditionFailed
  else
    match get_ledger res.1 lid with
    | .error e => .error e
    | .ok r => .ok (res.1, r)

/-- `LedgersDAL.update_ledger`: empty-patch guard, lookup of the
non-deleted ledger, fast stale check, then the conditional write. -/
def update_ledger (store : LedgerStore) (lid : Nat) (data : UpdateLedger)
    (expected : Option Time) (now : Time) :
    Except DalError (LedgerStore × LedgerRecord) :=
  if data.name = none ∧ data.description = none then .error .valueError
  else
    match store.find? (fun r => r.id == lid && r.deleted_at == none) with
    | none => .error .objectNotFound
    | some lg =>
        match expected with
        | some t =>
            if t < lg.updated_at then .error .preconditionFailed
            else ledgerWrite store lid data now
              (fun r => r.id == lid && r.deleted_at == none && r.updated_at == t)
        | none => ledgerWrite store lid data now
            (fun r => r.id == lid && r.deleted_at == none)

/-- `LedgersDAL.exists`: `find(id == ledger_id).exists()` — note: no
`deleted_at` filter. -/
def ledgerExists (store : LedgerStore) (lid : Nat) : Bool :=
  store.any (fun r => r.id == lid)

/-- `Transactions.add_transaction` (controller): guard on
`ledgers.exists`, then create the transaction. -/
def add_transaction (ledgers : LedgerStore) (txns : TransactionStore)
    (lid : Nat) (nt : NewTransactionData) (newId : Nat) (now : Time) :
    Except DalError (TransactionStore × TransactionRecord) :=
  if !(ledgerExists ledgers lid) then .error .objectNotFound
  else create_transaction txns lid nt newId now

/-! ## AccountsDAL -/

/-- A stored `AccountModel` document. -/
structure AccountRecord where
  id : Nat
  name : String
  path : String
  paths : List String
  ledger_id : Nat
  updated_at : Time
  created_at : Time
  deleted_at : Option Time
deriving DecidableEq, Repr

/-- An accounts collection. -/
abbrev AccountStore := List AccountRecord

/-- The `find_one` condition of the account-scoped queries. -/
def accountQuery (lid aid : Nat) (r : AccountRecord) : Bool :=
  r.id == aid && r.ledger_id == lid && r.deleted_at == none

/-- `AccountUpdate`: the partial account patch. -/
structure AccountUpdate where
  name : Option String := none
  path : Option String := none
deriving DecidableEq, Repr

/-- `Set(update_data)` for an account update: the present patch
fields plus `updated_at = pendulum.now("UTC")`, and when `path` is
patched the denormalized `paths` list is recomputed with
`AccountModel.parse_path` (= `split_path`). -/
def applyAccountPatch (u : AccountUpdate) (now : Time)
    (r : AccountRecord) : AccountRecord :=
  { r with
    name := u.name.getD r.name
    path := u.path.getD r.path
    paths := match u.path with
      | some p => split_path p
      | none => r.paths
    updated_at := now }

/-- The unique index on `AccountModel`:
`(ledger_id, path, name)`. -/
def accountDup (store : AccountStore) : Bool :=
  hasDupBy (fun r => (r.ledger_id, r.path, r.name)) store

/-- `AccountsDAL.create_account`: insert
(`paths` denormalized via `split_path`); a `DuplicateKeyError` is
caught and re-raised as `ConflictException`. -/
def create_account (store : AccountStore) (lid : Nat)
    (name path : String) (newId : Nat) (now : Time) :
    Except DalError (AccountStore × AccountRecord) :=
  let acc : AccountRecord :=
    ⟨newId, name, path, split_path path, lid, now, now, none⟩
  if store.any (fun r => r.ledger_id == lid && r.path == path && r.name == name)
  then .error .conflictError
  else .ok (store ++ [acc], acc)

/-- `AccountsDAL.get_by_id` re-read used after a successful update
(no ledger scope; only `deleted_at == None`). -/
def account_get_by_id (store : AccountStore) (aid : Nat) :
    Except DalError AccountRecord :=
  match store.find? (fun r => r.id == aid && r.deleted_at == none) with
  | none => .error .valueError
  | some r => .ok r

/-- The conditional-write stage of
`AccountsDAL.update_ledger_account`. The write is *not* wrapped in a
`DuplicateKeyError` handler: a unique `(ledger_id, path, name)`
violation escapes the DAL as the raw error. -/
def accountWrite (store : AccountStore) (aid : Nat) (u : AccountUpdate)
    (now : Time) (cond : AccountRecord → Bool) :
    Except DalError (AccountStore × AccountRecord) :=
  let res := updateFirst cond (applyAccountPatch u now) store
  if res.2 ≠ 0 && accountDup res.1 then .error .duplicateKey
  else if res.2 = 0 then .error .preconditionFailed
  else
    match account_get_by_id res.1 aid with
    | .error e => .error e
    | .ok r => .ok (res.1, r)

/-- `AccountsDAL.update_ledger_account`: lookup of the non-deleted
account, fast stale check, then the conditional write, additionally
keyed on `updated_at == expected` when supplied. -/
def update_ledger_account (store : AccountStore) (lid aid : Nat)
    (u : AccountUpdate) (expected : Option Time) (now : Time) :
    Except DalError (AccountStore × AccountRecord) :=
  match store.find? (accountQuery lid aid) with
  | none => .error .objectNotFound
  | some acc =>
      match expected with
      | some t =>
          if t < acc.updated_at then .error .preconditionFailed
          else accountWrite store aid u now
            (fun r => accountQuery lid aid r && r.updated_at == t)
      | none => accountWrite store aid u now (accountQuery lid aid)

/-! ## CommoditiesDAL -/

/-- A stored commodity document as MongoDB holds it. A `Set` write
bypasses model validation, so the raw document can carry `null` in
any payload column; the `CommodityModel`/`Commodity` schema
constraints are re-checked only when the document is read back
(`commodityValid`). -/
structure CommodityRecord where
  id : Nat
  ledger_id : Nat
  name : Option String
  code : Option String
  symbol : Option String
  subunit : Option Int
  no_market : Option Bool
  updated_at : Time
  created_at : Time
  deleted_at : Option Time
deriving DecidableEq, Repr

/-- The nullability constraints of the commodity schema
(`domain/types/commodity.py`): `name`, `code`, `subunit` and
`no_market` are non-null; `symbol` is `str | None`. Parsing a
document that violates them raises `ValidationError`. -/
def commodityValid (r : CommodityRecord) : Bool :=
  r.name.isSome && r.code.isSome && r.subunit.isSome && r.no_market.isSome

/-- A commodities collection. -/
abbrev CommodityStore := List CommodityRecord

/-- `UpdateCommodity`: optional payload fields plus the *required*
`updated_at` carrying the client's expected timestamp. -/
structure UpdateCommodity where
  name : Option String := none
  code : Option String := none
  symbol : Option String := none
  subunit : Option Int := none
  no_market : Option Bool := none
  updated_at : Time
deriving DecidableEq, Repr

/-- `Set(update_commodity.dict(exclude_unset=True))` in
`CommoditiesDAL.update_ledger_commodity`. Every `UpdateCommodity`
field is declared without a default, so pydantic marks all of them
set on construction and `exclude_unset=True` excludes nothing: the
dump always holds all five payload fields — `None` for the ones the
caller left unspecified — plus the client-supplied `updated_at`. The
write therefore overwrites every payload column with the payload's
value (possibly `null`) and stamps `updated_at` with the client's
expected timestamp. -/
def applyCommodityPatch (u : UpdateCommodity)
    (r : CommodityRecord) : CommodityRecord :=
  { r with
    name := u.name
    code := u.code
    symbol := u.symbol
    subunit := u.subunit
    no_market := u.no_market
    updated_at := u.updated_at }

/-- The unique index on `CommodityModel`: `(ledger_id, code)`. -/
def commodityDup (store : CommodityStore) : Bool :=
  hasDupBy (fun r => (r.ledger_id, r.code)) store

/-- `CommoditiesDAL.create`: insert; a `DuplicateKeyError` is caught
and re-raised as `ConflictException`. -/
def create_commodity (store : CommodityStore) (lid : Nat)
    (name code symbol : String) (subunit : Int) (no_market : Bool)
    (newId : Nat) (now : Time) :
    Except DalError (CommodityStore × CommodityRecord) :=
  let c : CommodityRecord :=
    ⟨newId, lid, some name, some code, some symbol, some subunit,
      some no_market, now, now, none⟩
  if store.any (fun r => r.ledger_id == lid && r.code == some code)
  then .error .conflictError
  else .ok (store ++ [c], c)

/-- `CommoditiesDAL.get_by_id`: `find_one` among non-deleted
documents, then `Commodity.model_validate`, which raises
`ValidationError` for a document whose payload columns were nulled by
a prior write. -/
def commodity_get_by_id (store : CommodityStore) (cid : Nat) :
    Except DalError CommodityRecord :=
  match store.find? (fun r => r.id == cid && r.deleted_at == none) with
  | none => .error .objectNotFound
  | some r => if commodityValid r then .ok r else .error .valueError

/-- `CommoditiesDAL.update_ledger_commodity`: one conditional write
keyed on `id`, `ledger_id`, `deleted_at == None` *and*
`updated_at == update_commodity.updated_at`; a `DuplicateKeyError` is
caught and re-raised as `ConflictException`; a write that matched no
document is treated as the absent case (`ObjectNotFound`); on
success the entity is re-read via `get_by_id`. The source's
`if not new_data` guard is dead code: `exclude_unset=True` is a
no-op (every `UpdateCommodity` field is required), so `new_data`
always holds all five payload keys. -/
def update_ledger_commodity (store : CommodityStore) (lid cid : Nat)
    (u : UpdateCommodity) :
    Except DalError (CommodityStore × CommodityRecord) :=
  let res := updateFirst
    (fun r => r.id == cid && r.ledger_id == lid && r.deleted_at == none &&
      r.updated_at == u.updated_at)
    (applyCommodityPatch u) store
  if res.2 ≠ 0 && commodityDup res.1 then .error .conflictError
  else if res.2 = 0 then .error .objectNotFound
  else
    match commodity_get_by_id res.1 cid with
    | .error e => .error e
    | .ok r => .ok (res.1, r)

/-- `CommoditiesDAL.delete_ledger_commodity_by_id`: one unconditional
soft-delete write setting only `deleted_at`; `ObjectNotFound` when
nothing matched. -/
def delete_ledger_commodity (store : CommodityStore) (lid cid : Nat)
    (now : Time) : Except DalError CommodityStore :=
  let res := updateFirst
    (fun r => r.id == cid && r.ledger_id == lid && r.deleted_at == none)
    (fun r => { r with deleted_at := some now }) store
  if res.2 = 0 then .error .objectNotFound
  else .ok res.1

/-! ## Lemmas about the conditional-write primitive -/

lemma updateFirst_append {α} (p : α → Bool) (f : α → α) (pre : List α)
    (x : α) (post : List α) (hpre : ∀ y ∈ pre, p y = false)
    (hx : p x = true) :
    updateFirst p f (pre ++ x :: post) = (pre ++ f x :: post, 1) := by
  induction pre with
  | nil => simp [updateFirst, hx]
  | cons z zs ih =>
      have hz : p z = false := hpre z (by simp)
      have h2 := ih (fun y hy => hpre y (by simp [hy]))
      simp [updateFirst, hz, h2]

lemma updateFirst_of_all_neg {α} (p : α → Bool) (f : α → α) (l : List α)
    (h : ∀ y ∈ l, p y = false) :
    updateFirst p f l = (l, 0) := by
  induction l with
  | nil => rfl
  | cons z zs ih =>
      have hz : p z = false := h z (by simp)
      have h2 := ih (fun y hy => h y (by simp [hy]))
      simp [updateFirst, hz, h2]

lemma find?_append_cons {α} (q : α → Bool) (pre : List α) (x : α)
    (post : List α) (hpre : ∀ y ∈ pre, q y = false) (hx : q x = true) :
    (pre ++ x :: post).find? q = some x := by
  induction pre with
  | nil => simp [List.find?_cons, hx]
  | cons z zs ih =>
      have hz : q z = false := hpre z (by simp)
      simp only [List.cons_append, List.find?_cons, hz,
        ih (fun y hy => hpre y (by simp [hy]))]

/-! ## The optimistic-concurrency protocol of the transaction store -/

lemma txnQuery_iff (lid tid : Nat) (r : TransactionRecord) :
    txnQuery lid tid r = true ↔
      r.id = tid ∧ r.ledger_id = lid ∧ r.deleted_at = none := by
  simp [txnQuery, and_assoc]

lemma update_txn_mismatch (store : TransactionStore) (lid tid : Nat)
    (data : UpdateTransaction) (now : Time) (txn : TransactionRecord)
    (t : Time) (hfind : store.find? (txnQuery lid tid) = some txn)
    (hnodup : store.Pairwise (fun a b => a.id ≠ b.id))
    (hne : txn.updated_at ≠ t) :
    update_ledger_transaction store lid tid data (some t) now =
      (store, .error .preconditionFailed) := by
  obtain ⟨hq, pre, post, hdecomp, hpre⟩ := List.find?_eq_some.mp hfind
  unfold update_ledger_transaction
  rw [hfind]
  show (if t < txn.updated_at then (store, Except.error DalError.preconditionFailed)
      else txnWrite store tid data now
        fun r => txnQuery lid tid r && r.updated_at == t) = _
  by_cases hlt : t < txn.updated_at
  · rw [if_pos hlt]
  · rw [if_neg hlt]
    unfold txnWrite
    have htid : txn.id = tid := ((txnQuery_iff lid tid txn).mp hq).1
    have hall : ∀ y ∈ store,
        (fun r => txnQuery lid tid r && r.updated_at == t) y = false := by
      subst hdecomp
      intro y hy
      rcases List.mem_append.mp hy with hy1 | hy2
      · have := hpre y hy1
        simp only [Bool.not_eq_eq_eq_not, Bool.not_true] at this
        simp [this]
      · rcases List.mem_cons.mp hy2 with rfl | hy3
        · simp [hne]
        · have hid : txn.id ≠ y.id := by
            have h4 := (List.pairwise_append.mp hnodup).2.1
            rw [List.pairwise_cons] at h4
            exact h4.1 y hy3
          by_cases hty : txnQuery lid tid y = true
          · exfalso
            exact hid (htid.trans ((txnQuery_iff lid tid y).mp hty).1.symm)
          · simp only [Bool.not_eq_true] at hty
            simp [hty]
    rw [updateFirst_of_all_neg _ _ _ hall]
    simp

lemma update_txn_commit (lid tid : Nat)
    (data : UpdateTransaction) (expected : Option Time) (now : Time)
    (txn : TransactionRecord) (pre post : List TransactionRecord)
    (hq : txnQuery lid tid txn = true)
    (hpre : ∀ y ∈ pre, txnQuery lid tid y = false)
    (hnodup : (pre ++ txn :: post).Pairwise (fun a b => a.id ≠ b.id))
    (hexp : expected = none ∨ expected = some txn.updated_at) :
    update_ledger_transaction (pre ++ txn :: post) lid tid data expected now =
      (pre ++ applyTransactionPatch data now txn :: post,
       get_transaction (pre ++ applyTransactionPatch data now txn :: post) tid)
    ∧ get_transaction (pre ++ applyTransactionPatch data now txn :: post) tid =
        (match check_details (applyTransactionPatch data now txn).details with
         | .error _ => .error .valueError
         | .ok _ => .ok (applyTransactionPatch data now txn)) := by
  have hfind := find?_append_cons (txnQuery lid tid) pre txn post hpre hq
  have htid : txn.id = tid := ((txnQuery_iff lid tid txn).mp hq).1
  have hdel : txn.deleted_at = none := ((txnQuery_iff lid tid txn).mp hq).2.2
  have hpreId : ∀ y ∈ pre, y.id ≠ tid := by
    intro y hy h5
    have h6 := (List.pairwise_append.mp hnodup).2.2 y hy txn (by simp)
    exact h6 (h5.trans htid.symm)
  have hgetfind : (pre ++ applyTransactionPatch data now txn :: post).find?
      (fun r => r.id == tid && r.deleted_at == none) =
        some (applyTransactionPatch data now txn) := by
    apply find?_append_cons
    · intro y hy
      simp [hpreId y hy]
    · simp [applyTransactionPatch, htid, hdel]
  have hget : get_transaction
      (pre ++ applyTransactionPatch data now txn :: post) tid =
        (match check_details (applyTransactionPatch data now txn).details with
         | .error _ => .error .valueError
         | .ok _ => .ok (applyTransactionPatch data now txn)) := by
    unfold get_transaction
    rw [hgetfind]
  refine ⟨?_, hget⟩
  rcases hexp with rfl | rfl
  · unfold update_ledger_transaction
    rw [hfind]
    show txnWrite (pre ++ txn :: post) tid data now (txnQuery lid tid) = _
    unfold txnWrite
    rw [updateFirst_append _ _ pre txn post hpre hq]
    simp
  · unfold update_ledger_transaction
    rw [hfind]
    show (if txn.updated_at < txn.updated_at then
        (pre ++ txn :: post, Except.error DalError.preconditionFailed)
      else txnWrite (pre ++ txn :: post) tid data now
        fun r => txnQuery lid tid r && r.updated_at == txn.updated_at) = _
    rw [if_neg (lt_irrefl txn.updated_at)]
    unfold txnWrite
    rw [updateFirst_append _ _ pre txn post
      (fun y hy => by simp [hpre y hy]) (by simp [hq])]
    simp

/-! ## The optimistic-concurrency protocol of the account store -/

lemma accountQuery_iff (lid aid : Nat) (r : AccountRecord) :
    accountQuery lid aid r = true ↔
      r.id = aid ∧ r.ledger_id = lid ∧ r.deleted_at = none := by
  simp [accountQuery, and_assoc]

lemma update_account_mismatch (store : AccountStore) (lid aid : Nat)
    (u : AccountUpdate) (now : Time) (acc : AccountRecord)
    (t : Time) (hfind : store.find? (accountQuery lid aid) = some acc)
    (hnodup : store.Pairwise (fun a b => a.id ≠ b.id))
    (hne : acc.updated_at ≠ t) :
    update_ledger_account store lid aid u (some t) now =
      .error .preconditionFailed := by
  obtain ⟨hq, pre, post, hdecomp, hpre⟩ := List.find?_eq_some.mp hfind
  unfold update_ledger_account
  rw [hfind]
  show (if t < acc.updated_at then Except.error DalError.preconditionFailed
      else accountWrite store aid u now
        fun r => accountQuery lid aid r && r.updated_at == t) = _
  by_cases hlt : t < acc.updated_at
  · rw [if_pos hlt]
  · rw [if_neg hlt]
    unfold accountWrite
    have haid : acc.id = aid := ((accountQuery_iff lid aid acc).mp hq).1
    have hall : ∀ y ∈ store,
        (fun r => accountQuery lid aid r && r.updated_at == t) y = false := by
      subst hdecomp
      intro y hy
      rcases List.mem_append.mp hy with hy1 | hy2
      · have := hpre y hy1
        simp only [Bool.not_eq_eq_eq_not, Bool.not_true] at this
        simp [this]
      · rcases List.mem_cons.mp hy2 with rfl | hy3
        · simp [hne]
        · have hid : acc.id ≠ y.id := by
            have h4 := (List.pairwise_append.mp hnodup).2.1
            rw [List.pairwise_cons] at h4
            exact h4.1 y hy3
          by_cases hty : accountQuery lid aid y = true
          · exfalso
            exact hid (haid.trans ((accountQuery_iff lid aid y).mp hty).1.symm)
          · simp only [Bool.not_eq_true] at hty
            simp [hty]
    rw [updateFirst_of_all_neg _ _ _ hall]
    simp

lemma update_account_success (lid aid : Nat)
    (u : AccountUpdate) (expected : Option Time) (now : Time)
    (acc : AccountRecord) (pre post : List AccountRecord)
    (hq : accountQuery lid aid acc = true)
    (hpre : ∀ y ∈ pre, accountQuery lid aid y = false)
    (hnodup : (pre ++ acc :: post).Pairwise (fun a b => a.id ≠ b.id))
    (hexp : expected = none ∨ expected = some acc.updated_at)
    (hdup : accountDup (pre ++ applyAccountPatch u now acc :: post) = false) :
    update_ledger_account (pre ++ acc :: post) lid aid u expected now =
      .ok (pre ++ applyAccountPatch u now acc :: post,
           applyAccountPatch u now acc) := by
  have hfind := find?_append_cons (accountQuery lid aid) pre acc post hpre hq
  have haid : acc.id = aid := ((accountQuery_iff lid aid acc).mp hq).1
  have hdel : acc.deleted_at = none := ((accountQuery_iff lid aid acc).mp hq).2.2
  have hpreId : ∀ y ∈ pre, y.id ≠ aid := by
    intro y hy h5
    have h6 := (List.pairwise_append.mp hnodup).2.2 y hy acc (by simp)
    exact h6 (h5.trans haid.symm)
  have hgetfind : (pre ++ applyAccountPatch u now acc :: post).find?
      (fun r => r.id == aid && r.deleted_at == none) =
        some (applyAccountPatch u now acc) := by
    apply find?_append_cons
    · intro y hy
      simp [hpreId y hy]
    · simp [applyAccountPatch, haid, hdel]
  rcases hexp with rfl | rfl
  · unfold update_ledger_account
    rw [hfind]
    show accountWrite (pre ++ acc :: post) aid u now (accountQuery lid aid) = _
    unfold accountWrite
    rw [updateFirst_append _ _ pre acc post hpre hq]
    simp [account_get_by_id, hgetfind, hdup]
  · unfold update_ledger_account
    rw [hfind]
    show (if acc.updated_at < acc.updated_at then
        Except.error DalError.preconditionFailed
      else accountWrite (pre ++ acc :: post) aid u now
        fun r => accountQuery lid aid r && r.updated_at == acc.updated_at) = _
    rw [if_neg (lt_irrefl acc.updated_at)]
    unfold accountWrite
    rw [updateFirst_append _ _ pre acc post
      (fun y hy => by simp [hpre y hy]) (by simp [hq])]
    simp [account_get_by_id, hgetfind, hdup]

/-! ## C2: the two-staged optimistic-concurrency update protocol -/

/-- C2. For both the transaction store and the account store (over a
collection with distinct document ids): when an expected timestamp
`t` is supplied and the stored entity's `updated_at` differs from
`t`, the update fails `PreconditionFailed` without writing — via the
fast local check when `updated_at > t`, else via the conditional
write keyed on `updated_at == t` matching zero rows; when no
timestamp is supplied, or the supplied timestamp equals the stored
one, the single conditional write commits the patch, and the
operation succeeds with the freshly re-read patched entity whenever
that validating re-read accepts it (for transactions: the patched
details pass `check_details`; for accounts: absent a uniqueness
conflict). -/
theorem occ_update_two_staged :
    (∀ (store : TransactionStore) (lid tid : Nat) (data : UpdateTransaction)
        (expected : Option Time) (now : Time) (txn : TransactionRecord),
      store.find? (txnQuery lid tid) = some txn →
      store.Pairwise (fun a b => a.id ≠ b.id) →
      ((∀ t, expected = some t → txn.updated_at ≠ t →
          update_ledger_transaction store lid tid data expected now =
            (store, .error .preconditionFailed))
       ∧ ((expected = none ∨ expected = some txn.updated_at) →
          ∃ pre post, store = pre ++ txn :: post ∧
            (update_ledger_transaction store lid tid data expected now).1 =
              pre ++ applyTransactionPatch data now txn :: post ∧
            ((check_details
                (applyTransactionPatch data now txn).details).isOk = true →
              update_ledger_transaction store lid tid data expected now =
                (pre ++ applyTransactionPatch data now txn :: post,
                 .ok (applyTransactionPatch data now txn))))))
    ∧ (∀ (store : AccountStore) (lid aid : Nat) (u : AccountUpdate)
        (expected : Option Time) (now : Time) (acc : AccountRecord),
      store.find? (accountQuery lid aid) = some acc →
      store.Pairwise (fun a b => a.id ≠ b.id) →
      ((∀ t, expected = some t → acc.updated_at ≠ t →
          update_ledger_account store lid aid u expected now =
            .error .preconditionFailed)
       ∧ ((expected = none ∨ expected = some acc.updated_at) →
          ∃ pre post, store = pre ++ acc :: post ∧
            (accountDup (pre ++ applyAccountPatch u now acc :: post) = false →
             update_ledger_account store lid aid u expected now =
               .ok (pre ++ applyAccountPatch u now acc :: post,
                    applyAccountPatch u now acc))))) := by
  constructor
  · intro store lid tid data expected now txn hfind hnodup
    constructor
    · rintro t rfl hne
      exact update_txn_mismatch store lid tid data now txn t hfind hnodup hne
    · intro hexp
      obtain ⟨hq, pre, post, hdecomp, hpre⟩ := List.find?_eq_some.mp hfind
      subst hdecomp
      obtain ⟨hcommit, hget⟩ := update_txn_commit lid tid data expected now
        txn pre post hq (fun y hy => by simpa using hpre y hy) hnodup hexp
      refine ⟨pre, post, rfl, by rw [hcommit], ?_⟩
      intro hvalid
      rw [hcommit, hget]
      rcases hcd : check_details (applyTransactionPatch data now txn).details
        with e | v
      · rw [hcd] at hvalid
        simp [Except.isOk, Except.toBool] at hvalid
      · rfl
  · intro store lid aid u expected now acc hfind hnodup
    constructor
    · rintro t rfl hne
      exact update_account_mismatch store lid aid u now acc t hfind hnodup hne
    · intro hexp
      obtain ⟨hq, pre, post, hdecomp, hpre⟩ := List.find?_eq_some.mp hfind
      refine ⟨pre, post, hdecomp, fun hdup => ?_⟩
      subst hdecomp
      exact update_account_success lid aid u expected now acc pre post hq
        (fun y hy => by simpa using hpre y hy) hnodup hexp hdup

/-- Witness for C2 on a one-transaction store (balanced details): a
mismatching expected timestamp fails `PreconditionFailed` without
writing, and the matching expected timestamp commits the patch and
returns the re-read entity. -/
theorem occ_update_two_staged_witness :
    (update_ledger_transaction
        [⟨2, 1, 0, "d", [⟨1, ⟨7, 5000⟩, none⟩, ⟨9, ⟨7, -5000⟩, none⟩], [],
          .uncleared, 5, 0, none⟩] 1 2
        ⟨some "e", none, none, none, none⟩ (some 4) 10 =
      ([⟨2, 1, 0, "d", [⟨1, ⟨7, 5000⟩, none⟩, ⟨9, ⟨7, -5000⟩, none⟩], [],
          .uncleared, 5, 0, none⟩], .error .preconditionFailed))
    ∧ ∃ pre post,
        ([⟨2, 1, 0, "d", [⟨1, ⟨7, 5000⟩, none⟩, ⟨9, ⟨7, -5000⟩, none⟩], [],
            .uncleared, 5, 0, none⟩] : TransactionStore) =
          pre ++ ⟨2, 1, 0, "d",
              [⟨1, ⟨7, 5000⟩, none⟩, ⟨9, ⟨7, -5000⟩, none⟩], [],
              .uncleared, 5, 0, none⟩ :: post ∧
        (update_ledger_transaction
            [⟨2, 1, 0, "d", [⟨1, ⟨7, 5000⟩, none⟩, ⟨9, ⟨7, -5000⟩, none⟩],
              [], .uncleared, 5, 0, none⟩] 1 2
            ⟨some "e", none, none, none, none⟩ (some 5) 10).1 =
          pre ++ applyTransactionPatch ⟨some "e", none, none, none, none⟩ 10
              ⟨2, 1, 0, "d", [⟨1, ⟨7, 5000⟩, none⟩, ⟨9, ⟨7, -5000⟩, none⟩],
                [], .uncleared, 5, 0, none⟩ :: post ∧
        ((check_details (applyTransactionPatch
              ⟨some "e", none, none, none, none⟩ 10
              ⟨2, 1, 0, "d", [⟨1, ⟨7, 5000⟩, none⟩, ⟨9, ⟨7, -5000⟩, none⟩],
                [], .uncleared, 5, 0, none⟩).details).isOk = true →
          update_ledger_transaction
              [⟨2, 1, 0, "d", [⟨1, ⟨7, 5000⟩, none⟩, ⟨9, ⟨7, -5000⟩, none⟩],
                [], .uncleared, 5, 0, none⟩] 1 2
              ⟨some "e", none, none, none, none⟩ (some 5) 10 =
            (pre ++ applyTransactionPatch
                ⟨some "e", none, none, none, none⟩ 10
                ⟨2, 1, 0, "d",
                  [⟨1, ⟨7, 5000⟩, none⟩, ⟨9, ⟨7, -5000⟩, none⟩], [],
                  .uncleared, 5, 0, none⟩ :: post,
             .ok (applyTransactionPatch ⟨some "e", none, none, none, none⟩ 10
                ⟨2, 1, 0, "d",
                  [⟨1, ⟨7, 5000⟩, none⟩, ⟨9, ⟨7, -5000⟩, none⟩], [],
                  .uncleared, 5, 0, none⟩))) :=
  ⟨(occ_update_two_staged.1
      [⟨2, 1, 0, "d", [⟨1, ⟨7, 5000⟩, none⟩, ⟨9, ⟨7, -5000⟩, none⟩], [],
        .uncleared, 5, 0, none⟩] 1 2
      ⟨some "e", none, none, none, none⟩ (some 4) 10
      ⟨2, 1, 0, "d", [⟨1, ⟨7, 5000⟩, none⟩, ⟨9, ⟨7, -5000⟩, none⟩], [],
        .uncleared, 5, 0, none⟩
      (by decide) (by decide)).1 4 rfl (by decide),
   (occ_update_two_staged.1
      [⟨2, 1, 0, "d", [⟨1, ⟨7, 5000⟩, none⟩, ⟨9, ⟨7, -5000⟩, none⟩], [],
        .uncleared, 5, 0, none⟩] 1 2
      ⟨some "e", none, none, none, none⟩ (some 5) 10
      ⟨2, 1, 0, "d", [⟨1, ⟨7, 5000⟩, none⟩, ⟨9, ⟨7, -5000⟩, none⟩], [],
        .uncleared, 5, 0, none⟩
      (by decide) (by decide)).2 (Or.inr rfl)⟩

/-! ## C7: what happens to an unbalanced update -/

/-- C7 counterexample: replacing a balanced stored transaction's
details with a single sum-100 (unbalanced) detail does *not* make the
update operation succeed: the conditional write commits the new
details, but the validating re-read then re-runs `check_details` and
the operation raises `ValidationError` instead of returning the
updated transaction. -/
theorem update_revalidation_counterexample :
    update_ledger_transaction
        [⟨2, 1, 0, "d", [⟨1, ⟨7, 5000⟩, none⟩, ⟨9, ⟨7, -5000⟩, none⟩], [],
          .uncleared, 5, 0, none⟩] 1 2
        ⟨none, none, some [⟨1, ⟨7, 100⟩, none⟩], none, none⟩ none 10 =
      ([⟨2, 1, 0, "d", [⟨1, ⟨7, 100⟩, none⟩], [], .uncleared, 10, 0, none⟩],
       .error .valueError) := by decide

/-- C7 (amended). The *write stage* of the transaction update runs no
balance validation: given a found id and a matching (or absent)
expected timestamp, the conditional write commits the replacement
details to the store even when their totals sum to a nonzero value —
the collection ends up holding the unbalanced details, which the
creation-time validator `check_details` rejects. But the operation as
a whole then fails: the post-write `get_transaction` re-read runs
`Transaction.model_validate`, which re-runs the inherited
`check_details` and raises `ValidationError`, so the update does not
return the updated transaction. -/
theorem update_unbalanced_details_rejected (store : TransactionStore)
    (lid tid : Nat) (ds : List Detail) (ts : List Amount)
    (expected : Option Time) (now : Time) (txn : TransactionRecord)
    (hfind : store.find? (txnQuery lid tid) = some txn)
    (hnodup : store.Pairwise (fun a b => a.id ≠ b.id))
    (hexp : expected = none ∨ expected = some txn.updated_at)
    (hts : ds.mapM Detail.total = .ok ts)
    (hsum : (ts.map Amount.amount).sum ≠ 0) :
    (check_details ds).isOk = false ∧
    ∃ pre post, store = pre ++ txn :: post ∧
      update_ledger_transaction store lid tid
          ⟨none, none, some ds, none, none⟩ expected now =
        (pre ++
          applyTransactionPatch ⟨none, none, some ds, none, none⟩ now txn
            :: post,
         .error .valueError) ∧
      (applyTransactionPatch ⟨none, none, some ds, none, none⟩ now txn).details
        = ds := by
  have hko : (check_details ds).isOk = false := by
    rcases ds with _ | ⟨d, ds'⟩
    · exfalso
      have h0 : (Except.ok ([] : List Amount) : Except PureError _) = .ok ts := hts
      injection h0 with h1
      subst h1
      exact hsum rfl
    · simp only [check_details, List.isEmpty_cons, Bool.false_eq_true, if_false,
        hts]
      simp [hsum, Except.isOk, Except.toBool]
  refine ⟨hko, ?_⟩
  obtain ⟨hq, pre, post, hdecomp, hpre⟩ := List.find?_eq_some.mp hfind
  subst hdecomp
  obtain ⟨hcommit, hget⟩ := update_txn_commit lid tid
    ⟨none, none, some ds, none, none⟩ expected now txn pre post hq
    (fun y hy => by simpa using hpre y hy) hnodup hexp
  refine ⟨pre, post, rfl, ?_, rfl⟩
  rw [hcommit, hget]
  have hdets : (applyTransactionPatch ⟨none, none, some ds, none, none⟩ now
      txn).details = ds := rfl
  rcases hcd : check_details ds with e | v
  · rw [hdets, hcd]
  · rw [hcd] at hko
    simp [Except.isOk, Except.toBool] at hko

/-- Witness for C7 (amended): the concrete unbalanced update commits
the details but fails with the validation error. -/
theorem update_unbalanced_details_rejected_witness :
    (check_details [⟨1, ⟨7, 100⟩, none⟩]).isOk = false ∧
    ∃ pre post,
      ([⟨2, 1, 0, "d", [⟨1, ⟨7, 5000⟩, none⟩, ⟨9, ⟨7, -5000⟩, none⟩], [],
          .uncleared, 5, 0, none⟩] : TransactionStore) =
        pre ++ ⟨2, 1, 0, "d",
            [⟨1, ⟨7, 5000⟩, none⟩, ⟨9, ⟨7, -5000⟩, none⟩], [],
            .uncleared, 5, 0, none⟩ :: post ∧
      update_ledger_transaction
          [⟨2, 1, 0, "d", [⟨1, ⟨7, 5000⟩, none⟩, ⟨9, ⟨7, -5000⟩, none⟩], [],
            .uncleared, 5, 0, none⟩] 1 2
          ⟨none, none, some [⟨1, ⟨7, 100⟩, none⟩], none, none⟩ none 10 =
        (pre ++
          applyTransactionPatch
            ⟨none, none, some [⟨1, ⟨7, 100⟩, none⟩], none, none⟩ 10
            ⟨2, 1, 0, "d", [⟨1, ⟨7, 5000⟩, none⟩, ⟨9, ⟨7, -5000⟩, none⟩],
              [], .uncleared, 5, 0, none⟩ :: post,
         .error .valueError) ∧
      (applyTransactionPatch
          ⟨none, none, some [⟨1, ⟨7, 100⟩, none⟩], none, none⟩ 10
          ⟨2, 1, 0, "d", [⟨1, ⟨7, 5000⟩, none⟩, ⟨9, ⟨7, -5000⟩, none⟩], [],
            .uncleared, 5, 0, none⟩).details = [⟨1, ⟨7, 100⟩, none⟩] :=
  update_unbalanced_details_rejected
    [⟨2, 1, 0, "d", [⟨1, ⟨7, 5000⟩, none⟩, ⟨9, ⟨7, -5000⟩, none⟩], [],
      .uncleared, 5, 0, none⟩] 1 2 [⟨1, ⟨7, 100⟩, none⟩] [⟨7, 100⟩] none 10
    ⟨2, 1, 0, "d", [⟨1, ⟨7, 5000⟩, none⟩, ⟨9, ⟨7, -5000⟩, none⟩], [],
      .uncleared, 5, 0, none⟩
    (by decide) (by decide) (Or.inl rfl) (by decide) (by decide)

/-! ## C8: soft delete excludes but preserves -/

lemma delete_txn_success (lid tid : Nat) (expected : Option Time) (now : Time)
    (txn : TransactionRecord) (pre post : List TransactionRecord)
    (hq : txnQuery lid tid txn = true)
    (hpre : ∀ y ∈ pre, txnQuery lid tid y = false)
    (hexp : expected = none ∨ expected = some txn.updated_at) :
    delete_ledger_transaction (pre ++ txn :: post) lid tid expected now =
      .ok (pre ++ { txn with deleted_at := some now } :: post) := by
  have hfind := find?_append_cons (txnQuery lid tid) pre txn post hpre hq
  rcases hexp with rfl | rfl
  · unfold delete_ledger_transaction
    rw [hfind]
    show txnDeleteWrite (pre ++ txn :: post) now (txnQuery lid tid) = _
    unfold txnDeleteWrite
    rw [updateFirst_append _ _ pre txn post hpre hq]
    simp
  · unfold delete_ledger_transaction
    rw [hfind]
    show (if txn.updated_at < txn.updated_at then
        Except.error DalError.preconditionFailed
      else txnDeleteWrite (pre ++ txn :: post) now
        fun r => txnQuery lid tid r && r.updated_at == txn.updated_at) = _
    rw [if_neg (lt_irrefl txn.updated_at)]
    unfold txnDeleteWrite
    rw [updateFirst_append _ _ pre txn post
      (fun y hy => by simp [hpre y hy]) (by simp [hq])]
    simp

lemma find_excludes_deleted (store : TransactionStore) (lid : Nat)
    (accounts_ids : List (Sigil × Nat)) (args : FindTransactionsArgs)
    (r : TransactionRecord) (hr : r.deleted_at ≠ none) :
    r ∉ (find_ledger_transactions store lid accounts_ids args).1 := by
  intro hmem
  unfold find_ledger_transactions at hmem
  have h1 : r ∈ store.filter (findMatches lid args accounts_ids) := by
    have h2 := List.mem_of_mem_drop (List.mem_of_mem_take hmem)
    by_cases hd : args.descending
    · rw [if_pos hd] at h2
      exact List.mem_mergeSort.mp h2
    · rw [if_neg hd] at h2
      exact List.mem_mergeSort.mp h2
  have h3 := (List.mem_filter.mp h1).2
  unfold findMatches at h3
  simp only [Bool.and_eq_true, beq_iff_eq] at h3
  exact hr h3.1.1.1.1.1.1.2

/-- C8. A successful `delete_ledger_transaction` rewrites the stored
document in place, setting `deleted_at` to the current timestamp and
leaving every other field unchanged; afterwards `get_transaction`
fails `ObjectNotFound`, the document appears in no
`find_ledger_transactions` result whatever the filters, and the
collection still physically holds the same number of documents. -/
theorem soft_delete_excludes_preserves (store : TransactionStore)
    (lid tid : Nat) (expected : Option Time) (now : Time)
    (txn : TransactionRecord)
    (hfind : store.find? (txnQuery lid tid) = some txn)
    (hnodup : store.Pairwise (fun a b => a.id ≠ b.id))
    (hexp : expected = none ∨ expected = some txn.updated_at) :
    ∃ pre post, store = pre ++ txn :: post ∧
      delete_ledger_transaction store lid tid expected now =
        .ok (pre ++ { txn with deleted_at := some now } :: post) ∧
      ({ txn with deleted_at := some now } :
          TransactionRecord).deleted_at = some now ∧
      get_transaction (pre ++ { txn with deleted_at := some now } :: post) tid
        = .error .objectNotFound ∧
      (∀ (lid2 : Nat) (accounts_ids : List (Sigil × Nat))
          (args : FindTransactionsArgs),
        { txn with deleted_at := some now } ∉
          (find_ledger_transactions
            (pre ++ { txn with deleted_at := some now } :: post)
            lid2 accounts_ids args).1) ∧
      (pre ++ { txn with deleted_at := some now } :: post).length =
        store.length := by
  obtain ⟨hq, pre, post, hdecomp, hpre⟩ := List.find?_eq_some.mp hfind
  have htid : txn.id = tid := ((txnQuery_iff lid tid txn).mp hq).1
  subst hdecomp
  have hpreId : ∀ y ∈ pre, y.id ≠ tid := by
    intro y hy h5
    have h6 := (List.pairwise_append.mp hnodup).2.2 y hy txn (by simp)
    exact h6 (h5.trans htid.symm)
  have hpostId : ∀ y ∈ post, y.id ≠ tid := by
    intro y hy h5
    have h4 := (List.pairwise_append.mp hnodup).2.1
    rw [List.pairwise_cons] at h4
    exact h4.1 y hy (htid.trans h5.symm)
  refine ⟨pre, post, rfl, ?_, rfl, ?_, ?_, by simp⟩
  · exact delete_txn_success lid tid expected now txn pre post hq
      (fun y hy => by simpa using hpre y hy) hexp
  · unfold get_transaction
    rw [List.find?_eq_none.mpr ?_]
    intro y hy
    rcases List.mem_append.mp hy with hy1 | hy2
    · simp [hpreId y hy1]
    · rcases List.mem_cons.mp hy2 with rfl | hy3
      · simp
      · simp [hpostId y hy3]
  · intro lid2 accounts_ids args
    exact find_excludes_deleted _ lid2 accounts_ids args _ (by simp)

/-- Witness for C8 on a one-transaction store. -/
theorem soft_delete_excludes_preserves_witness :
    ∃ pre post,
      ([⟨2, 1, 0, "d", [], [], .uncleared, 5, 0, none⟩] :
          TransactionStore) =
        pre ++ ⟨2, 1, 0, "d", [], [], .uncleared, 5, 0, none⟩ :: post ∧
      delete_ledger_transaction
          [⟨2, 1, 0, "d", [], [], .uncleared, 5, 0, none⟩] 1 2 none 10 =
        .ok (pre ++
            { (⟨2, 1, 0, "d", [], [], .uncleared, 5, 0, none⟩ :
                TransactionRecord) with deleted_at := some 10 } :: post) ∧
      ({ (⟨2, 1, 0, "d", [], [], .uncleared, 5, 0, none⟩ :
          TransactionRecord) with deleted_at := some 10 }).deleted_at =
        some 10 ∧
      get_transaction
          (pre ++ { (⟨2, 1, 0, "d", [], [], .uncleared, 5, 0, none⟩ :
            TransactionRecord) with deleted_at := some 10 } :: post) 2 =
        .error .objectNotFound ∧
      (∀ (lid2 : Nat) (accounts_ids : List (Sigil × Nat))
          (args : FindTransactionsArgs),
        { (⟨2, 1, 0, "d", [], [], .uncleared, 5, 0, none⟩ :
            TransactionRecord) with deleted_at := some 10 } ∉
          (find_ledger_transactions
            (pre ++ { (⟨2, 1, 0, "d", [], [], .uncleared, 5, 0, none⟩ :
              TransactionRecord) with deleted_at := some 10 } :: post)
            lid2 accounts_ids args).1) ∧
      (pre ++ { (⟨2, 1, 0, "d", [], [], .uncleared, 5, 0, none⟩ :
          TransactionRecord) with deleted_at := some 10 } :: post).length =
        ([⟨2, 1, 0, "d", [], [], .uncleared, 5, 0, none⟩] :
          TransactionStore).length :=
  soft_delete_excludes_preserves
    [⟨2, 1, 0, "d", [], [], .uncleared, 5, 0, none⟩] 1 2 none 10
    ⟨2, 1, 0, "d", [], [], .uncleared, 5, 0, none⟩
    (by decide) (by decide) (Or.inl rfl)

/-! ## C10: the ledger-existence guard ignores soft deletion -/

/-- C10. `LedgersDAL.exists` filters only on the id — not on
`deleted_at` — so a soft-deleted ledger still passes the guard of the
add-transaction controller, and creating a transaction under that
ledger's id proceeds and succeeds (with a fresh transaction id)
instead of failing `ObjectNotFound`. -/
theorem soft_deleted_ledger_guard (ledgers : LedgerStore)
    (txns : TransactionStore) (lid : Nat) (nt : NewTransactionData)
    (newId : Nat) (now : Time) (lg : LedgerRecord) (d : Time)
    (hmem : lg ∈ ledgers) (hlid : lg.id = lid)
    (hdel : lg.deleted_at = some d)
    (hfresh : ∀ t ∈ txns, t.id ≠ newId) :
    ledgerExists ledgers lid = true ∧
    add_transaction ledgers txns lid nt newId now =
      .ok (txns ++ [⟨newId, lid, nt.date_time, nt.description, nt.details,
            nt.tags, nt.state, now, now, none⟩],
          ⟨newId, lid, nt.date_time, nt.description, nt.details, nt.tags,
            nt.state, now, now, none⟩) := by
  have hex : ledgerExists ledgers lid = true := by
    simp only [ledgerExists, List.any_eq_true]
    exact ⟨lg, hmem, by simp [hlid]⟩
  refine ⟨hex, ?_⟩
  unfold add_transaction
  rw [hex]
  simp only [Bool.not_true, Bool.false_eq_true, if_false]
  simp only [create_transaction, get_transaction]
  rw [find?_append_cons _ txns _ []
    (fun y hy => by simp [hfresh y hy]) (by simp)]
  rcases hcd : check_details nt.details with e | v
  · exact absurd nt.valid_details
      (by rw [hcd]; simp [Except.isOk, Except.toBool])
  · simp [hcd]

/-- Witness for C10: a single soft-deleted ledger and an empty
transaction store. -/
theorem soft_deleted_ledger_guard_witness :
    ledgerExists [⟨1, "L", none, 0, 0, some 3⟩] 1 = true ∧
    add_transaction [⟨1, "L", none, 0, 0, some 3⟩] [] 1
        ⟨"d", 0, [⟨1, ⟨7, 5000⟩, none⟩, ⟨9, ⟨7, -5000⟩, none⟩], [],
          .uncleared, by decide⟩ 2 10 =
      .ok ([] ++ [⟨2, 1, 0, "d",
            [⟨1, ⟨7, 5000⟩, none⟩, ⟨9, ⟨7, -5000⟩, none⟩], [],
            .uncleared, 10, 10, none⟩],
          ⟨2, 1, 0, "d", [⟨1, ⟨7, 5000⟩, none⟩, ⟨9, ⟨7, -5000⟩, none⟩], [],
            .uncleared, 10, 10, none⟩) :=
  soft_deleted_ledger_guard [⟨1, "L", none, 0, 0, some 3⟩] [] 1
    ⟨"d", 0, [⟨1, ⟨7, 5000⟩, none⟩, ⟨9, ⟨7, -5000⟩, none⟩], [],
      .uncleared, by decide⟩
    2 10 ⟨1, "L", none, 0, 0, some 3⟩ 3 (by decide) rfl rfl
    (fun t ht => absurd ht (List.not_mem_nil t))

/-! ## Success paths of the ledger and commodity writes -/

lemma ledger_update_success (lid : Nat) (data : UpdateLedger)
    (expected : Option Time) (now : Time) (lg : LedgerRecord)
    (pre post : List LedgerRecord)
    (hlid : lg.id = lid) (hdel : lg.deleted_at = none)
    (hdata : ¬(data.name = none ∧ data.description = none))
    (hnodup : (pre ++ lg :: post).Pairwise (fun a b => a.id ≠ b.id))
    (hexp : expected = none ∨ expected = some lg.updated_at)
    (hdup : ledgerDup (pre ++ applyLedgerPatch data now lg :: post) = false) :
    update_ledger (pre ++ lg :: post) lid data expected now =
      .ok (pre ++ applyLedgerPatch data now lg :: post,
           applyLedgerPatch data now lg) := by
  have hpreId : ∀ y ∈ pre, y.id ≠ lid := by
    intro y hy h5
    have h6 := (List.pairwise_append.mp hnodup).2.2 y hy lg (by simp)
    exact h6 (h5.trans hlid.symm)
  have hq : (fun r : LedgerRecord => r.id == lid && r.deleted_at == none) lg
      = true := by simp [hlid, hdel]
  have hpre : ∀ y ∈ pre,
      (fun r : LedgerRecord => r.id == lid && r.deleted_at == none) y
        = false := by
    intro y hy
    simp [hpreId y hy]
  have hfind := find?_append_cons
    (fun r : LedgerRecord => r.id == lid && r.deleted_at == none)
    pre lg post hpre hq
  have hgetfind : (pre ++ applyLedgerPatch data now lg :: post).find?
      (fun r => r.id == lid && r.deleted_at == none) =
        some (applyLedgerPatch data now lg) := by
    apply find?_append_cons _ _ _ _ hpre
    simp [applyLedgerPatch, hlid, hdel]
  unfold update_ledger
  rw [if_neg hdata, hfind]
  rcases hexp with rfl | rfl
  · show ledgerWrite (pre ++ lg :: post) lid data now
        (fun r => r.id == lid && r.deleted_at == none) = _
    unfold ledgerWrite
    rw [updateFirst_append _ _ pre lg post hpre hq]
    simp [get_ledger, hgetfind, hdup]
  · show (if lg.updated_at < lg.updated_at then
        Except.error DalError.preconditionFailed
      else ledgerWrite (pre ++ lg :: post) lid data now
        fun r => r.id == lid && r.deleted_at == none &&
          r.updated_at == lg.updated_at) = _
    rw [if_neg (lt_irrefl lg.updated_at)]
    unfold ledgerWrite
    rw [updateFirst_append _ _ pre lg post
      (fun y hy => by simp [hpreId y hy]) (by simp [hlid, hdel])]
    simp [get_ledger, hgetfind, hdup]

lemma commodity_update_success (lid cid : Nat) (u : UpdateCommodity)
    (c : CommodityRecord) (pre post : List CommodityRecord)
    (hcid : c.id = cid) (hlidc : c.ledger_id = lid)
    (hdelc : c.deleted_at = none) (hupd : c.updated_at = u.updated_at)
    (hnodup : (pre ++ c :: post).Pairwise (fun a b => a.id ≠ b.id))
    (hdup : commodityDup (pre ++ applyCommodityPatch u c :: post) = false)
    (hvalid : commodityValid (applyCommodityPatch u c) = true) :
    update_ledger_commodity (pre ++ c :: post) lid cid u =
      .ok (pre ++ applyCommodityPatch u c :: post, applyCommodityPatch u c) := by
  have hpreId : ∀ y ∈ pre, y.id ≠ cid := by
    intro y hy h5
    have h6 := (List.pairwise_append.mp hnodup).2.2 y hy c (by simp)
    exact h6 (h5.trans hcid.symm)
  have hgetfind : (pre ++ applyCommodityPatch u c :: post).find?
      (fun r => r.id == cid && r.deleted_at == none) =
        some (applyCommodityPatch u c) := by
    apply find?_append_cons
    · intro y hy
      simp [hpreId y hy]
    · simp [applyCommodityPatch, hcid, hdelc]
  unfold update_ledger_commodity
  rw [updateFirst_append _ _ pre c post
    (fun y hy => by simp [hpreId y hy]) (by simp [hcid, hlidc, hdelc, hupd])]
  simp [commodity_get_by_id, hgetfind, hdup, hvalid]

lemma commodity_delete_success (lid cid : Nat) (now : Time)
    (c : CommodityRecord) (pre post : List CommodityRecord)
    (hcid : c.id = cid) (hlidc : c.ledger_id = lid)
    (hdelc : c.deleted_at = none)
    (hnodup : (pre ++ c :: post).Pairwise (fun a b => a.id ≠ b.id)) :
    delete_ledger_commodity (pre ++ c :: post) lid cid now =
      .ok (pre ++ { c with deleted_at := some now } :: post) := by
  have hpreId : ∀ y ∈ pre, y.id ≠ cid := by
    intro y hy h5
    have h6 := (List.pairwise_append.mp hnodup).2.2 y hy c (by simp)
    exact h6 (h5.trans hcid.symm)
  unfold delete_ledger_commodity
  rw [updateFirst_append _ _ pre c post
    (fun y hy => by simp [hpreId y hy]) (by simp [hcid, hlidc, hdelc])]
  simp

/-! ## C4: which mutations bump `updated_at` -/

/-- C4 counterexample: a successful transaction delete (a mutation)
writes only `deleted_at`; the stored `updated_at` stays 5, not
strictly greater than the previous value — refuting the claim that
every successful mutation bumps `updated_at`. -/
theorem updated_at_bump_counterexample :
    delete_ledger_transaction
        [⟨2, 1, 0, "d", [], [], .uncleared, 5, 0, none⟩] 1 2 none 10 =
      .ok [⟨2, 1, 0, "d", [], [], .uncleared, 5, 0, some 10⟩] ∧
    ¬ ((⟨2, 1, 0, "d", [], [], .uncleared, 5, 0, some 10⟩ :
          TransactionRecord).updated_at >
        (⟨2, 1, 0, "d", [], [], .uncleared, 5, 0, none⟩ :
          TransactionRecord).updated_at) := by decide

/-- C4 (amended). Ledger, account and transaction *updates* stamp the
document they commit with `updated_at = now` (the write-time clock);
the transaction *delete* writes only `deleted_at`, leaving
`updated_at` unchanged; the commodity *update* stamps the committed
document with the client-supplied `updated_at` value rather than a
fresh one; and the commodity *delete* also leaves `updated_at`
unchanged. -/
theorem updated_at_semantics :
    (∀ (store : TransactionStore) (lid tid : Nat) (data : UpdateTransaction)
        (expected : Option Time) (now : Time) (txn : TransactionRecord),
      store.find? (txnQuery lid tid) = some txn →
      store.Pairwise (fun a b => a.id ≠ b.id) →
      (expected = none ∨ expected = some txn.updated_at) →
      ∃ pre post, store = pre ++ txn :: post ∧
        (update_ledger_transaction store lid tid data expected now).1 =
          pre ++ applyTransactionPatch data now txn :: post ∧
        (applyTransactionPatch data now txn).updated_at = now)
    ∧ (∀ (store : AccountStore) (lid aid : Nat) (u : AccountUpdate)
        (expected : Option Time) (now : Time) (acc : AccountRecord),
      store.find? (accountQuery lid aid) = some acc →
      store.Pairwise (fun a b => a.id ≠ b.id) →
      (expected = none ∨ expected = some acc.updated_at) →
      ∃ pre post, store = pre ++ acc :: post ∧
        (accountDup (pre ++ applyAccountPatch u now acc :: post) = false →
          update_ledger_account store lid aid u expected now =
            .ok (pre ++ applyAccountPatch u now acc :: post,
                 applyAccountPatch u now acc)) ∧
        (applyAccountPatch u now acc).updated_at = now)
    ∧ (∀ (lid : Nat) (data : UpdateLedger) (expected : Option Time)
        (now : Time) (lg : LedgerRecord) (pre post : List LedgerRecord),
      lg.id = lid → lg.deleted_at = none →
      ¬(data.name = none ∧ data.description = none) →
      (pre ++ lg :: post).Pairwise (fun a b => a.id ≠ b.id) →
      (expected = none ∨ expected = some lg.updated_at) →
      ledgerDup (pre ++ applyLedgerPatch data now lg :: post) = false →
      update_ledger (pre ++ lg :: post) lid data expected now =
        .ok (pre ++ applyLedgerPatch data now lg :: post,
             applyLedgerPatch data now lg) ∧
      (applyLedgerPatch data now lg).updated_at = now)
    ∧ (∀ (store : TransactionStore) (lid tid : Nat) (expected : Option Time)
        (now : Time) (txn : TransactionRecord),
      store.find? (txnQuery lid tid) = some txn →
      (expected = none ∨ expected = some txn.updated_at) →
      ∃ pre post, store = pre ++ txn :: post ∧
        delete_ledger_transaction store lid tid expected now =
          .ok (pre ++ { txn with deleted_at := some now } :: post) ∧
        ({ txn with deleted_at := some now } :
            TransactionRecord).updated_at = txn.updated_at)
    ∧ (∀ (lid cid : Nat) (u : UpdateCommodity) (c : CommodityRecord)
        (pre post : List CommodityRecord),
      c.id = cid → c.ledger_id = lid → c.deleted_at = none →
      c.updated_at = u.updated_at →
      (pre ++ c :: post).Pairwise (fun a b => a.id ≠ b.id) →
      commodityDup (pre ++ applyCommodityPatch u c :: post) = false →
      (commodityValid (applyCommodityPatch u c) = true →
        update_ledger_commodity (pre ++ c :: post) lid cid u =
          .ok (pre ++ applyCommodityPatch u c :: post,
               applyCommodityPatch u c)) ∧
      (applyCommodityPatch u c).updated_at = u.updated_at)
    ∧ (∀ (lid cid : Nat) (now : Time) (c : CommodityRecord)
        (pre post : List CommodityRecord),
      c.id = cid → c.ledger_id = lid → c.deleted_at = none →
      (pre ++ c :: post).Pairwise (fun a b => a.id ≠ b.id) →
      delete_ledger_commodity (pre ++ c :: post) lid cid now =
        .ok (pre ++ { c with deleted_at := some now } :: post) ∧
      ({ c with deleted_at := some now } :
          CommodityRecord).updated_at = c.updated_at) := by
  refine ⟨?_, ?_, ?_, ?_, ?_, ?_⟩
  · intro store lid tid data expected now txn hfind hnodup hexp
    obtain ⟨hq, pre, post, hdecomp, hpre⟩ := List.find?_eq_some.mp hfind
    refine ⟨pre, post, hdecomp, ?_, rfl⟩
    subst hdecomp
    obtain ⟨hcommit, _⟩ := update_txn_commit lid tid data expected now txn
      pre post hq (fun y hy => by simpa using hpre y hy) hnodup hexp
    rw [hcommit]
  · intro store lid aid u expected now acc hfind hnodup hexp
    obtain ⟨hq, pre, post, hdecomp, hpre⟩ := List.find?_eq_some.mp hfind
    refine ⟨pre, post, hdecomp, fun hdup => ?_, rfl⟩
    subst hdecomp
    exact update_account_success lid aid u expected now acc pre post hq
      (fun y hy => by simpa using hpre y hy) hnodup hexp hdup
  · intro lid data expected now lg pre post hlid hdel hdata hnodup hexp hdup
    exact ⟨ledger_update_success lid data expected now lg pre post hlid hdel
      hdata hnodup hexp hdup, rfl⟩
  · intro store lid tid expected now txn hfind hexp
    obtain ⟨hq, pre, post, hdecomp, hpre⟩ := List.find?_eq_some.mp hfind
    refine ⟨pre, post, hdecomp, ?_, rfl⟩
    subst hdecomp
    exact delete_txn_success lid tid expected now txn pre post hq
      (fun y hy => by simpa using hpre y hy) hexp
  · intro lid cid u c pre post hcid hlidc hdelc hupd hnodup hdup
    exact ⟨fun hvalid => commodity_update_success lid cid u c pre post hcid
      hlidc hdelc hupd hnodup hdup hvalid, rfl⟩
  · intro lid cid now c pre post hcid hlidc hdelc hnodup
    exact ⟨commodity_delete_success lid cid now c pre post hcid hlidc hdelc
      hnodup, rfl⟩

/-- Witness for C4 (amended): a transaction delete leaving
`updated_at` at 5, and a commodity update writing the client-supplied
timestamp 5 rather than a fresh one. -/
theorem updated_at_semantics_witness :
    (∃ pre post,
      ([⟨2, 1, 0, "d", [], [], .uncleared, 5, 0, none⟩] :
          TransactionStore) =
        pre ++ ⟨2, 1, 0, "d", [], [], .uncleared, 5, 0, none⟩ :: post ∧
      delete_ledger_transaction
          [⟨2, 1, 0, "d", [], [], .uncleared, 5, 0, none⟩] 1 2 none 10 =
        .ok (pre ++ { (⟨2, 1, 0, "d", [], [], .uncleared, 5, 0, none⟩ :
            TransactionRecord) with deleted_at := some 10 } :: post) ∧
      ({ (⟨2, 1, 0, "d", [], [], .uncleared, 5, 0, none⟩ :
          TransactionRecord) with deleted_at := some 10 }).updated_at =
        (⟨2, 1, 0, "d", [], [], .uncleared, 5, 0, none⟩ :
          TransactionRecord).updated_at)
    ∧ (update_ledger_commodity
          ([] ++ ⟨2, 1, some "Coin", some "TST", some "T", some 10,
            some false, 5, 0, none⟩ :: []) 1 2
          ⟨some "Coin2", some "TST", some "T", some 100, some false, 5⟩ =
        .ok ([] ++ applyCommodityPatch
              ⟨some "Coin2", some "TST", some "T", some 100, some false, 5⟩
              ⟨2, 1, some "Coin", some "TST", some "T", some 10, some false,
                5, 0, none⟩ :: [],
            applyCommodityPatch
              ⟨some "Coin2", some "TST", some "T", some 100, some false, 5⟩
              ⟨2, 1, some "Coin", some "TST", some "T", some 10, some false,
                5, 0, none⟩) ∧
      (applyCommodityPatch
          ⟨some "Coin2", some "TST", some "T", some 100, some false, 5⟩
          ⟨2, 1, some "Coin", some "TST", some "T", some 10, some false,
            5, 0, none⟩).updated_at = 5) :=
  ⟨updated_at_semantics.2.2.2.1
      [⟨2, 1, 0, "d", [], [], .uncleared, 5, 0, none⟩] 1 2 none 10
      ⟨2, 1, 0, "d", [], [], .uncleared, 5, 0, none⟩
      (by decide) (Or.inl rfl),
   (updated_at_semantics.2.2.2.2.1 1 2
      ⟨some "Coin2", some "TST", some "T", some 100, some false, 5⟩
      ⟨2, 1, some "Coin", some "TST", some "T", some 10, some false,
        5, 0, none⟩ [] []
      rfl rfl rfl rfl (by decide) (by decide)).1 (by decide),
   (updated_at_semantics.2.2.2.2.1 1 2
      ⟨some "Coin2", some "TST", some "T", some 100, some false, 5⟩
      ⟨2, 1, some "Coin", some "TST", some "T", some 10, some false,
        5, 0, none⟩ [] []
      rfl rfl rfl rfl (by decide) (by decide)).2⟩

/-! ## C5: how uniqueness violations surface -/

lemma account_update_dup (lid aid : Nat) (u : AccountUpdate) (now : Time)
    (acc : AccountRecord) (pre post : List AccountRecord)
    (haid : acc.id = aid) (hlidc : acc.ledger_id = lid)
    (hdelc : acc.deleted_at = none)
    (hnodup : (pre ++ acc :: post).Pairwise (fun a b => a.id ≠ b.id))
    (hdup : accountDup (pre ++ applyAccountPatch u now acc :: post) = true) :
    update_ledger_account (pre ++ acc :: post) lid aid u none now =
      .error .duplicateKey := by
  have hpreId : ∀ y ∈ pre, y.id ≠ aid := by
    intro y hy h5
    have h6 := (List.pairwise_append.mp hnodup).2.2 y hy acc (by simp)
    exact h6 (h5.trans haid.symm)
  have hq : accountQuery lid aid acc = true := by
    simp [accountQuery, haid, hlidc, hdelc]
  have hpre : ∀ y ∈ pre, accountQuery lid aid y = false := by
    intro y hy
    simp [accountQuery, hpreId y hy]
  have hfind := find?_append_cons (accountQuery lid aid) pre acc post hpre hq
  unfold update_ledger_account
  rw [hfind]
  show accountWrite (pre ++ acc :: post) aid u now (accountQuery lid aid) = _
  unfold accountWrite
  rw [updateFirst_append _ _ pre acc post hpre hq]
  simp [hdup]

lemma commodity_update_dup (lid cid : Nat) (u : UpdateCommodity)
    (c : CommodityRecord) (pre post : List CommodityRecord)
    (hcid : c.id = cid) (hlidc : c.ledger_id = lid)
    (hdelc : c.deleted_at = none) (hupd : c.updated_at = u.updated_at)
    (hnodup : (pre ++ c :: post).Pairwise (fun a b => a.id ≠ b.id))
    (hdup : commodityDup (pre ++ applyCommodityPatch u c :: post) = true) :
    update_ledger_commodity (pre ++ c :: post) lid cid u =
      .error .conflictError := by
  have hpreId : ∀ y ∈ pre, y.id ≠ cid := by
    intro y hy h5
    have h6 := (List.pairwise_append.mp hnodup).2.2 y hy c (by simp)
    exact h6 (h5.trans hcid.symm)
  unfold update_ledger_commodity
  rw [updateFirst_append _ _ pre c post
    (fun y hy => by simp [hpreId y hy]) (by simp [hcid, hlidc, hdelc, hupd])]
  simp [hdup]

/-- C5 counterexample: renaming account 2's path onto account 1's
`(ledger_id, path, name)` key makes the conditional write raise a
duplicate-key error that `update_ledger_account` does not catch: the
operation surfaces the raw `DuplicateKeyError`, not `Conflict` — so
uniqueness violations do *not* surface as `Conflict` on every update
path. -/
theorem conflict_mapping_counterexample :
    update_ledger_account
        [⟨1, "N", "Assets:Cash", ["Assets", "Assets:Cash"], 1, 0, 0, none⟩,
         ⟨2, "N", "Assets:Bank", ["Assets", "Assets:Bank"], 1, 0, 0, none⟩]
        1 2 ⟨none, some "Assets:Cash"⟩ none 10 =
      .error .duplicateKey ∧
    (DalError.duplicateKey ≠ DalError.conflictError) := by decide

/-- C5 (amended). A uniqueness violation surfaces as `Conflict` on
ledger create, account create, commodity create, and commodity
update (whose writes catch the duplicate-key error), and `Conflict`
is distinct from `PreconditionFailed`; but account update performs
its conditional write without the handler, so a uniqueness violation
there escapes as the raw `DuplicateKeyError` (an uncaught internal
fault), distinct from `Conflict`. -/
theorem conflict_error_mapping :
    (∀ (store : LedgerStore) (name : String) (desc : Option String)
        (newId : Nat) (now : Time),
      (∃ r ∈ store, r.name = name) →
      create_ledger store name desc newId now = .error .conflictError)
    ∧ (∀ (store : AccountStore) (lid : Nat) (name path : String)
        (newId : Nat) (now : Time),
      (∃ r ∈ store, r.ledger_id = lid ∧ r.path = path ∧ r.name = name) →
      create_account store lid name path newId now = .error .conflictError)
    ∧ (∀ (store : CommodityStore) (lid : Nat) (name code symbol : String)
        (subunit : Int) (no_market : Bool) (newId : Nat) (now : Time),
      (∃ r ∈ store, r.ledger_id = lid ∧ r.code = some code) →
      create_commodity store lid name code symbol subunit no_market newId now
        = .error .conflictError)
    ∧ (∀ (lid cid : Nat) (u : UpdateCommodity) (c : CommodityRecord)
        (pre post : List CommodityRecord),
      c.id = cid → c.ledger_id = lid → c.deleted_at = none →
      c.updated_at = u.updated_at →
      ¬(u.name = none ∧ u.code = none ∧ u.symbol = none ∧
        u.subunit = none ∧ u.no_market = none) →
      (pre ++ c :: post).Pairwise (fun a b => a.id ≠ b.id) →
      commodityDup (pre ++ applyCommodityPatch u c :: post) = true →
      update_ledger_commodity (pre ++ c :: post) lid cid u =
        .error .conflictError)
    ∧ (∀ (lid aid : Nat) (u : AccountUpdate) (now : Time)
        (acc : AccountRecord) (pre post : List AccountRecord),
      acc.id = aid → acc.ledger_id = lid → acc.deleted_at = none →
      (pre ++ acc :: post).Pairwise (fun a b => a.id ≠ b.id) →
      accountDup (pre ++ applyAccountPatch u now acc :: post) = true →
      update_ledger_account (pre ++ acc :: post) lid aid u none now =
        .error .duplicateKey)
    ∧ (DalError.conflictError ≠ DalError.preconditionFailed ∧
       DalError.conflictError ≠ DalError.duplicateKey) := by
  refine ⟨?_, ?_, ?_, ?_, ?_, by decide, by decide⟩
  · rintro store name desc newId now ⟨r, hr, hname⟩
    unfold create_ledger
    rw [if_pos]
    simp only [List.any_eq_true]
    exact ⟨r, hr, by simp [hname]⟩
  · rintro store lid name path newId now ⟨r, hr, h1, h2, h3⟩
    unfold create_account
    rw [if_pos]
    simp only [List.any_eq_true]
    exact ⟨r, hr, by simp [h1, h2, h3]⟩
  · rintro store lid name code symbol subunit no_market newId now
      ⟨r, hr, h1, h2⟩
    unfold create_commodity
    rw [if_pos]
    simp only [List.any_eq_true]
    exact ⟨r, hr, by simp [h1, h2]⟩
  · intro lid cid u c pre post hcid hlidc hdelc hupd hnonempty hnodup hdup
    exact commodity_update_dup lid cid u c pre post hcid hlidc hdelc hupd
      hnodup hdup
  · intro lid aid u now acc pre post haid hlidc hdelc hnodup hdup
    exact account_update_dup lid aid u now acc pre post haid hlidc hdelc
      hnodup hdup

/-- Witness for C5 (amended): a duplicate ledger name on create maps
to `Conflict`, while an account update landing on an existing
`(ledger_id, path, name)` key escapes as the raw duplicate-key
fault. -/
theorem conflict_error_mapping_witness :
    create_ledger [⟨1, "L", none, 0, 0, none⟩] "L" none 2 10 =
      .error .conflictError ∧
    update_ledger_account
        ([⟨1, "N", "Assets:Cash", ["Assets", "Assets:Cash"], 1, 0, 0,
            none⟩] ++
          ⟨2, "N", "Assets:Bank", ["Assets", "Assets:Bank"], 1, 0, 0, none⟩
            :: []) 1 2 ⟨none, some "Assets:Cash"⟩ none 10 =
      .error .duplicateKey :=
  ⟨conflict_error_mapping.1 [⟨1, "L", none, 0, 0, none⟩] "L" none 2 10
      ⟨⟨1, "L", none, 0, 0, none⟩, by simp, rfl⟩,
   conflict_error_mapping.2.2.2.2.1 1 2 ⟨none, some "Assets:Cash"⟩ 10
      ⟨2, "N", "Assets:Bank", ["Assets", "Assets:Bank"], 1, 0, 0, none⟩
      [⟨1, "N", "Assets:Cash", ["Assets", "Assets:Cash"], 1, 0, 0, none⟩] []
      rfl rfl rfl (by decide) (by decide)⟩

end OpumLedger
